import Mathlib

/-!
Shallow embedding of the NetworkLogger backend
(src/NetworkLoggerBackend/{models,helper_functions,network_logger}.py).

Files are modelled as an association list from file name (relative to the
fixed `log_directory`, which is constant throughout and therefore dropped)
to file content.  JSON values appearing in raw event dicts are modelled by
`Value`; Python dicts by association lists with first-occurrence lookup.
-/

/-- JSON-like values carried in raw event dicts and inside stored entries.
(Lists do not occur as field values in any code path the backend reads, so
they are not modelled.) -/
inductive Value where
  | vStr : String → Value
  | vBool : Bool → Value
  | vInt : Int → Value
  | vNull : Value
  | vDict : List (String × Value) → Value
deriving Repr

/-- Structural equality on `Value` (nested inductive, so spelled out). -/
def Value.beq : Value → Value → Bool
  | .vStr a, .vStr b => a == b
  | .vBool a, .vBool b => a == b
  | .vInt a, .vInt b => a == b
  | .vNull, .vNull => true
  | .vDict a, .vDict b => beqEntries a b
  | _, _ => false
where
  beqEntries : List (String × Value) → List (String × Value) → Bool
  | [], [] => true
  | (k, v) :: rest, (k2, v2) :: rest2 => k == k2 && Value.beq v v2 && beqEntries rest rest2
  | _, _ => false

/-- `Value.beq` is reflexive (needed for decidable equality). -/
def Value.beqRefl : ∀ v : Value, Value.beq v v = true := by
  refine fun v => @Value.rec (fun v => Value.beq v v = true)
    (fun es => Value.beq.beqEntries es es = true)
    (fun p => Value.beq p.2 p.2 = true) ?_ ?_ ?_ ?_ ?_ ?_ ?_ ?_ v
  · intro s; simp [Value.beq]
  · intro b; simp [Value.beq]
  · intro n; simp [Value.beq]
  · simp [Value.beq]
  · intro es ih; simpa [Value.beq] using ih
  · simp [Value.beq.beqEntries]
  · intro hd tl ihh iht
    simp [Value.beq.beqEntries, ihh, iht]
  · intro k v ih; simpa using ih

/-- `Value.beq` implies equality (needed for decidable equality). -/
def Value.eqOfBeq : ∀ (a b : Value), Value.beq a b = true → a = b := by
  refine fun a => @Value.rec
    (fun a => ∀ b, Value.beq a b = true → a = b)
    (fun es => ∀ es2, Value.beq.beqEntries es es2 = true → es = es2)
    (fun p => ∀ v2 : Value, Value.beq p.2 v2 = true → p.2 = v2)
    ?_ ?_ ?_ ?_ ?_ ?_ ?_ ?_ a
  · intro s b h; cases b <;> simp_all [Value.beq]
  · intro x b h; cases b <;> simp_all [Value.beq]
  · intro n b h; cases b <;> simp_all [Value.beq]
  · intro b h; cases b <;> simp_all [Value.beq]
  · intro es ih b h
    cases b <;> simp_all [Value.beq]
    exact ih _ h
  · intro es2 h; cases es2 <;> simp_all [Value.beq.beqEntries]
  · intro hd tl ihh iht es2 h
    cases es2 with
    | nil => simp [Value.beq.beqEntries] at h
    | cons hd2 tl2 =>
      simp only [Value.beq.beqEntries, Bool.and_eq_true, beq_iff_eq] at h
      have h1 := ihh hd2.2 h.1.2
      have h2 := iht tl2 h.2
      have h3 : hd = hd2 := Prod.ext h.1.1 h1
      rw [h3, h2]
  · intro k v ih v2 hv
    exact ih v2 hv

instance : DecidableEq Value := fun a b =>
  if h : Value.beq a b = true then
    .isTrue (Value.eqOfBeq a b h)
  else
    .isFalse (fun he => h (he ▸ Value.beqRefl a))

/-- A Python dict of JSON values (keys unique in real dicts; lookup takes
the first occurrence, which coincides on duplicate-free lists). -/
abbrev Dict := List (String × Value)

/-- `d.get(k)` / `k in d` lookup on a dict. -/
def dictGet (d : Dict) (k : String) : Option Value :=
  match d with
  | [] => none
  | (k2, v) :: rest => if k2 = k then some v else dictGet rest k

/-- Python `str(v)` for the values the backend stringifies
(`str(session_context['userId'])`, `str(log.sessionContext[field])`). -/
def pyStr : Value → String
  | .vStr s => s
  | .vBool true => "True"
  | .vBool false => "False"
  | .vInt n => toString n
  | .vNull => "None"
  | .vDict es => "\x7b" ++ pyStrEntries es ++ "\x7d"
where
  pyStrEntries : List (String × Value) → String
  | [] => ""
  | [(k, v)] => "'" ++ k ++ "': " ++ pyStr v
  | (k, v) :: rest => "'" ++ k ++ "': " ++ pyStr v ++ ", " ++ pyStrEntries rest

/-- Python truthiness of a value (`if session_context:` etc.). -/
def Value.truthy : Value → Bool
  | .vStr s => s ≠ ""
  | .vBool b => b
  | .vInt n => n ≠ 0
  | .vNull => false
  | .vDict es => !es.isEmpty

/-- The `NetworkLogEntry` dataclass (models.py / network_logger.py).  The
dataclass performs no runtime type validation, so every field holds an
arbitrary `Value`; fields with a Python default of `None` default to
`vNull`. -/
structure NetworkLogEntry where
  timestamp : Value
  eventType : Value
  networkType : Value
  isConnected : Value
  isInternetReachable : Value
  serverConnected : Value := Value.vNull
  additionalInfo : Value := Value.vNull
  ipAddress : Value := Value.vNull
  subnet : Value := Value.vNull
  previousSubnet : Value := Value.vNull
  ssid : Value := Value.vNull
  bssid : Value := Value.vNull
  cellularGeneration : Value := Value.vNull
  details : Value := Value.vNull
  sessionContext : Value := Value.vNull
  server_received_at : Value := Value.vNull
  client_ip : Value := Value.vNull
  device_info : Value := Value.vNull
deriving DecidableEq, Repr

/-- The declared dataclass fields, in declaration order. -/
def fieldNames : List String :=
  ["timestamp", "eventType", "networkType", "isConnected", "isInternetReachable",
   "serverConnected", "additionalInfo", "ipAddress", "subnet", "previousSubnet",
   "ssid", "bssid", "cellularGeneration", "details", "sessionContext",
   "server_received_at", "client_ip", "device_info"]

/-- Fields without a default value: keyword construction fails when any of
these is absent. -/
def requiredFields : List String :=
  ["timestamp", "eventType", "networkType", "isConnected", "isInternetReachable"]

/-- `NetworkLogEntry(**d)`: fails (TypeError) on an unexpected keyword or a
missing required field; otherwise fills each field from the dict, using the
dataclass default for absent optional fields. -/
def mkNetworkLogEntry (d : Dict) : Except String NetworkLogEntry :=
  if !(d.all fun kv => fieldNames.contains kv.1) then
    Except.error "__init__() got an unexpected keyword argument"
  else if !(requiredFields.all fun k => (dictGet d k).isSome) then
    Except.error "__init__() missing required positional argument"
  else
    Except.ok
      { timestamp := (dictGet d "timestamp").getD Value.vNull
        eventType := (dictGet d "eventType").getD Value.vNull
        networkType := (dictGet d "networkType").getD Value.vNull
        isConnected := (dictGet d "isConnected").getD Value.vNull
        isInternetReachable := (dictGet d "isInternetReachable").getD Value.vNull
        serverConnected := (dictGet d "serverConnected").getD Value.vNull
        additionalInfo := (dictGet d "additionalInfo").getD Value.vNull
        ipAddress := (dictGet d "ipAddress").getD Value.vNull
        subnet := (dictGet d "subnet").getD Value.vNull
        previousSubnet := (dictGet d "previousSubnet").getD Value.vNull
        ssid := (dictGet d "ssid").getD Value.vNull
        bssid := (dictGet d "bssid").getD Value.vNull
        cellularGeneration := (dictGet d "cellularGeneration").getD Value.vNull
        details := (dictGet d "details").getD Value.vNull
        sessionContext := (dictGet d "sessionContext").getD Value.vNull
        server_received_at := (dictGet d "server_received_at").getD Value.vNull
        client_ip := (dictGet d "client_ip").getD Value.vNull
        device_info := (dictGet d "device_info").getD Value.vNull }

/-- `dataclasses.asdict(log)`: all declared fields, in declaration order. -/
def asdictEntry (e : NetworkLogEntry) : Dict :=
  [("timestamp", e.timestamp), ("eventType", e.eventType),
   ("networkType", e.networkType), ("isConnected", e.isConnected),
   ("isInternetReachable", e.isInternetReachable),
   ("serverConnected", e.serverConnected), ("additionalInfo", e.additionalInfo),
   ("ipAddress", e.ipAddress), ("subnet", e.subnet),
   ("previousSubnet", e.previousSubnet), ("ssid", e.ssid), ("bssid", e.bssid),
   ("cellularGeneration", e.cellularGeneration), ("details", e.details),
   ("sessionContext", e.sessionContext),
   ("server_received_at", e.server_received_at), ("client_ip", e.client_ip),
   ("device_info", e.device_info)]

/-- Content of one partition file.  `corrupt` stands for any content that
`json.load` rejects (including a file truncated by an interrupted write);
`jsonList items` is a JSON array of objects. -/
inductive FileData where
  | corrupt : FileData
  | jsonList : List Dict → FileData
deriving DecidableEq, Repr

/-- The log directory: file name → content, in directory-listing order. -/
abbrev FS := List (String × FileData)

/-- Contents of file `name`, `none` when the file does not exist. -/
def fsRead (fs : FS) (name : String) : Option FileData :=
  match fs with
  | [] => none
  | (k, v) :: rest => if k = name then some v else fsRead rest name

/-- `open(name, 'w')` + full write: replaces the file in place, creating it
at the end of the listing when new. -/
def fsWrite (fs : FS) (name : String) (d : FileData) : FS :=
  match fs with
  | [] => [(name, d)]
  | (k, v) :: rest =>
    if k = name then (name, d) :: rest else (k, v) :: fsWrite rest name d

/-- `os.listdir(log_directory)`. -/
def listdir (fs : FS) : List String := fs.map Prod.fst

/-- `load_logs_from_file`: a missing file (FileNotFoundError) yields `[]`;
a file `json.load` cannot parse yields `[]` (logged, swallowed); a JSON
array whose items do not all reconstruct as `NetworkLogEntry` also raises
inside the `try` and yields `[]`. -/
def load_logs_from_file (fs : FS) (file_path : String) : List NetworkLogEntry :=
  match fsRead fs file_path with
  | none => []
  | some FileData.corrupt => []
  | some (FileData.jsonList items) =>
    match items.mapM mkNetworkLogEntry with
    | Except.ok logs => logs
    | Except.error _ => []

/-- `save_logs_to_file`: prepend the new logs to the existing ones, keep at
most `max_logs`, and write the result back as a JSON array of dicts. -/
def save_logs_to_file (fs : FS) (new_logs : List NetworkLogEntry)
    (file_path : String) (max_logs : Nat) : FS :=
  let existing_logs := load_logs_from_file fs file_path
  let all_logs := new_logs ++ existing_logs
  let all_logs := if all_logs.length > max_logs then all_logs.take max_logs else all_logs
  fsWrite fs file_path (FileData.jsonList (all_logs.map asdictEntry))

/-- Python `s.replace(c, r)` for a single-character pattern: replace every
occurrence of the character. -/
def replaceChar (s : String) (c r : Char) : String :=
  ⟨s.data.map fun x => if x = c then r else x⟩

/-- Python `s.startswith(pat)`. -/
def strStartsWith (s pat : String) : Bool :=
  pat.data.isPrefixOf s.data

/-- Python `s.endswith(pat)`. -/
def strEndsWith (s pat : String) : Bool :=
  pat.data.isSuffixOf s.data

/-- Python `pat in s` on strings: substring containment. -/
def strContains (s pat : String) : Bool :=
  decide (pat.data <:+: s.data)

/-- Python lexicographic comparison `a <= b` on strings (by code point). -/
def charListLe : List Char → List Char → Bool
  | [], _ => true
  | _ :: _, [] => false
  | a :: as, b :: bs => if a = b then charListLe as bs else decide (a < b)

/-- `client_ip.replace(':', '_').replace('.', '_')`. -/
def sanitizeIp (client_ip : String) : String :=
  replaceChar (replaceChar client_ip ':' '_') '.' '_'

/-- `str(user_id).replace('/', '_').replace('\\', '_')`. -/
def sanitizeUser (user_id : String) : String :=
  replaceChar (replaceChar user_id '/' '_') '\\' '_'

/-- Python truthiness of an `Optional[str]`. -/
def truthyS : Option String → Bool
  | none => false
  | some s => s ≠ ""

/-- `_get_client_file_path` / `get_client_file_path`: the file name for a
client IP and optional user id (the constant `log_directory` prefix of
`os.path.join` is dropped).  `if user_id:` is Python truthiness. -/
def get_client_file_path (client_ip : String) (user_id : Option String) : String :=
  let safe_ip := sanitizeIp client_ip
  match user_id with
  | some u =>
    if u ≠ "" then safe_ip ++ "_user_" ++ sanitizeUser u ++ ".json"
    else safe_ip ++ ".json"
  | none => safe_ip ++ ".json"

/-- `_extract_user_id_from_logs`: first `sessionContext.userId` in batch
order, stringified.  `log_data.get('sessionContext', {})` defaults to an
empty dict; `if session_context and 'userId' in session_context` applies
truthiness and then membership, which raises TypeError when the value is a
truthy non-container and does string-membership plus string-indexing (which
raises) when it is a nonempty string. -/
def extract_user_id_from_logs : List Dict → Except String (Option String)
  | [] => Except.ok none
  | log_data :: rest =>
    match (dictGet log_data "sessionContext").getD (Value.vDict []) with
    | Value.vDict es =>
      if es.isEmpty then extract_user_id_from_logs rest
      else
        match dictGet es "userId" with
        | some v => Except.ok (some (pyStr v))
        | none => extract_user_id_from_logs rest
    | Value.vNull => extract_user_id_from_logs rest
    | Value.vBool b =>
      if b then Except.error "argument of type bool is not iterable"
      else extract_user_id_from_logs rest
    | Value.vInt n =>
      if n = 0 then extract_user_id_from_logs rest
      else Except.error "argument of type int is not iterable"
    | Value.vStr s =>
      if s = "" then extract_user_id_from_logs rest
      else if strContains s "userId" then
        Except.error "string indices must be integers"
      else extract_user_id_from_logs rest

/-- The loop in `handle_log_upload` building `new_logs`: construct each
`NetworkLogEntry` and attach `server_received_at`, `client_ip` and
`device_info`; the first construction failure aborts the batch. -/
def buildLogs (logs_data : List Dict) (client_ip : String)
    (device_info : Value) (now : String) : Except String (List NetworkLogEntry) :=
  match logs_data with
  | [] => Except.ok []
  | log_data :: rest =>
    match mkNetworkLogEntry log_data with
    | Except.error e => Except.error e
    | Except.ok log =>
      match buildLogs rest client_ip device_info now with
      | Except.error e => Except.error e
      | Except.ok logs =>
        Except.ok ({ log with server_received_at := Value.vStr now,
                              client_ip := Value.vStr client_ip,
                              device_info := device_info } :: logs)

/-- `_get_client_log_count`: length of the log stored under the
address-only file (`_get_client_file_path(client_ip)` with no user id). -/
def get_client_log_count (fs : FS) (client_ip : String) : Nat :=
  (load_logs_from_file fs (get_client_file_path client_ip none)).length

/-- The dict returned by `handle_log_upload`, flattened: the success dict
populates `received`, `total_stored`, `saved_to`, `user_id`; the failure
dict populates `error` and `client_ip`; both carry `timestamp`. -/
structure UploadResult where
  success : Bool
  received : Nat := 0
  total_stored : Nat := 0
  saved_to : String := ""
  user_id : Option String := none
  error : String := ""
  client_ip : String := ""
  timestamp : String
deriving DecidableEq, Repr

/-- `handle_log_upload`: `logs_data` and `device_info` are
`request_data.get('logs', [])` and `request_data.get('deviceInfo', {})`
already extracted by the transport; `now` stands for
`datetime.now().isoformat()`.  Any raise inside the body is caught and
turned into the failure dict, leaving the store untouched. -/
def handle_log_upload (fs : FS) (max_logs : Nat) (logs_data : List Dict)
    (device_info : Value) (client_ip : String) (now : String) :
    UploadResult × FS :=
  match extract_user_id_from_logs logs_data with
  | Except.error e =>
    ({ success := false, error := e, client_ip := client_ip, timestamp := now }, fs)
  | Except.ok user_id =>
    match buildLogs logs_data client_ip device_info now with
    | Except.error e =>
      ({ success := false, error := e, client_ip := client_ip, timestamp := now }, fs)
    | Except.ok new_logs =>
      let client_file := get_client_file_path client_ip user_id
      let fs2 := save_logs_to_file fs new_logs client_file max_logs
      let total_stored := get_client_log_count fs2 client_ip
      ({ success := true, received := new_logs.length, total_stored := total_stored,
         saved_to := client_file, user_id := user_id, timestamp := now }, fs2)

/-- Python comparison `x <= y` on the values used as sort keys.  Only
same-type comparisons occur for data the backend sorts (string
timestamps); Python raises TypeError on the remaining cross-type pairs, so
their value here is a total-order completion by a rank on constructors,
unused by any theorem about string-timestamp data. -/
def valueLe (a b : Value) : Bool :=
  match a, b with
  | .vStr x, .vStr y => charListLe x.data y.data
  | .vInt x, .vInt y => decide (x ≤ y)
  | .vBool x, .vBool y => !x || y
  | .vNull, .vNull => true
  | .vDict _, .vDict _ => true
  | .vNull, _ => true
  | _, .vNull => false
  | .vBool _, _ => true
  | _, .vBool _ => false
  | .vInt _, _ => true
  | _, .vInt _ => false
  | .vStr _, .vDict _ => true
  | .vDict _, .vStr _ => false

/-- `logs.sort(key=lambda x: x.timestamp, reverse=True)`: a stable sort,
newest (largest timestamp) first. -/
def sortNewestFirst (logs : List NetworkLogEntry) : List NetworkLogEntry :=
  logs.mergeSort fun a b => valueLe b.timestamp a.timestamp

/-- `if limit: logs = logs[:limit]` — the slice is applied only when
`limit` is truthy (not `None` and not `0`). -/
def applyLimit (limit : Option Nat) (logs : List NetworkLogEntry) :
    List NetworkLogEntry :=
  match limit with
  | none => logs
  | some n => if n ≠ 0 then logs.take n else logs


/-- `get_logs_ip`: merge every `.json` file whose name starts with the
sanitized address, sort newest-first, then apply the limit. -/
def get_logs_ip (fs : FS) (client_ip : String) (limit : Option Nat) :
    List NetworkLogEntry :=
  let safe_ip := sanitizeIp client_ip
  let files := (listdir fs).filter fun n => strEndsWith n ".json" && strStartsWith n safe_ip
  let all_logs := files.flatMap (load_logs_from_file fs)
  applyLimit limit (sortNewestFirst all_logs)

/-- `get_logs_user`: merge every `.json` file whose name contains
`_user_{user_id}` — the raw, unsanitized id — sort newest-first, apply the
limit. -/
def get_logs_user (fs : FS) (user_id : String) (limit : Option Nat) :
    List NetworkLogEntry :=
  let files := (listdir fs).filter fun n =>
    strEndsWith n ".json" && strContains n ("_user_" ++ user_id)
  let user_logs := files.flatMap (load_logs_from_file fs)
  applyLimit limit (sortNewestFirst user_logs)

/-- One iteration of the inner loop of `get_logs_session_context`:
`if not log.sessionContext or session_field not in log.sessionContext:
continue`, then the stringified comparison.  Membership on a truthy
non-container raises; so does indexing a string by the field name. -/
def sessionFilterLog (session_field session_value : String)
    (log : NetworkLogEntry) : Except String (Option NetworkLogEntry) :=
  match log.sessionContext with
  | Value.vNull => Except.ok none
  | Value.vBool b =>
    if b then Except.error "argument of type bool is not iterable"
    else Except.ok none
  | Value.vInt n =>
    if n = 0 then Except.ok none
    else Except.error "argument of type int is not iterable"
  | Value.vStr s =>
    if s = "" then Except.ok none
    else if strContains s session_field then
      Except.error "string indices must be integers"
    else Except.ok none
  | Value.vDict es =>
    if es.isEmpty then Except.ok none
    else
      match dictGet es session_field with
      | none => Except.ok none
      | some v =>
        Except.ok (if pyStr v = session_value then some log else none)

/-- `get_logs_session_context`: scan every `.json` file, keep the logs
whose `sessionContext[field]` stringifies to `value`, sort newest-first,
apply the limit.  The function has no `try`, so a raise inside the scan
propagates (modelled as `Except.error`). -/
def scan_session_logs (fs : FS) (session_field session_value : String) :
    Except String (List NetworkLogEntry) :=
  ((listdir fs).filter fun n => strEndsWith n ".json").foldlM
    (fun acc n =>
      (load_logs_from_file fs n).foldlM
        (fun acc2 log => do
          match ← sessionFilterLog session_field session_value log with
          | some l => pure (acc2 ++ [l])
          | none => pure acc2)
        acc)
    ([] : List NetworkLogEntry)

def get_logs_session_context (fs : FS) (session_field session_value : String)
    (limit : Option Nat) : Except String (List NetworkLogEntry) := do
  let matching_logs ← scan_session_logs fs session_field session_value
  pure (applyLimit limit (sortNewestFirst matching_logs))

/-- `clear_logs`: dispatch on which of the two optional (truthy) arguments
are present; each affected file is counted by loading it and then
overwritten with `json.dump([], f)`. -/
def clear_logs (fs : FS) (client_ip : Option String) (user_id : Option String) :
    Nat × FS :=
  if truthyS client_ip && truthyS user_id then
    let client_file := get_client_file_path (client_ip.getD "") user_id
    let logs := load_logs_from_file fs client_file
    let count := logs.length
    (count, fsWrite fs client_file (FileData.jsonList []))
  else if truthyS client_ip then
    let safe_ip := sanitizeIp (client_ip.getD "")
    let files := (listdir fs).filter fun n =>
      strEndsWith n ".json" && strStartsWith n safe_ip
    files.foldl (fun acc n =>
      let logs := load_logs_from_file acc.2 n
      (acc.1 + logs.length, fsWrite acc.2 n (FileData.jsonList []))) (0, fs)
  else if truthyS user_id then
    let files := (listdir fs).filter fun n =>
      strEndsWith n ".json" && strContains n ("_user_" ++ user_id.getD "")
    files.foldl (fun acc n =>
      let logs := load_logs_from_file acc.2 n
      (acc.1 + logs.length, fsWrite acc.2 n (FileData.jsonList []))) (0, fs)
  else
    let files := (listdir fs).filter fun n => strEndsWith n ".json"
    files.foldl (fun acc n =>
      let logs := load_logs_from_file acc.2 n
      (acc.1 + logs.length, fsWrite acc.2 n (FileData.jsonList []))) (0, fs)

/-- Models the failure mode of the persist step in `save_logs_to_file`:
`open(file_path, 'w')` truncates the file immediately, and a `json.dump`
that raises before completing (out of disk space, unserializable data)
leaves the file holding a strict prefix of the intended JSON — content
`json.load` cannot parse. -/
def persist_interrupted (fs : FS) (file_path : String) : FS :=
  fsWrite fs file_path FileData.corrupt

/-- Constructor rank used to complete Python's partial cross-type
comparison into a total order (see `valueLe`). -/
def valueRank : Value → Nat
  | .vNull => 0
  | .vBool _ => 1
  | .vInt _ => 2
  | .vStr _ => 3
  | .vDict _ => 4

/-- `tsNewerEq a b`: `a` is at least as new as `b` — their timestamp
strings compare in descending order (vacuous for non-string timestamps,
which Python's sort would reject with a TypeError before returning). -/
def tsNewerEq (a b : NetworkLogEntry) : Prop :=
  ∀ sa sb, a.timestamp = Value.vStr sa → b.timestamp = Value.vStr sb →
    charListLe sb.data sa.data = true

/-- A well-formed raw event carrying only the required fields. -/
def rawAnon (ts : String) : Dict :=
  [("timestamp", Value.vStr ts), ("eventType", Value.vStr "connection_change"),
   ("networkType", Value.vNull), ("isConnected", Value.vNull),
   ("isInternetReachable", Value.vNull)]

/-- A well-formed raw event whose session context carries a `userId`. -/
def rawWithUser (ts uid : String) : Dict :=
  rawAnon ts ++ [("sessionContext", Value.vDict [("userId", Value.vStr uid)])]

/-- A raw event missing required constructor arguments. -/
def rawMissingRequired : Dict := [("timestamp", Value.vStr "T9")]

/-- A raw event with one key outside the declared dataclass fields. -/
def rawExtraKey : Dict := rawAnon "T2" ++ [("bogusKey", Value.vNull)]

/-- A stored log entry used as concrete prior partition state. -/
def sampleEntry : NetworkLogEntry :=
  { timestamp := Value.vStr "T0", eventType := Value.vStr "connect",
    networkType := Value.vNull, isConnected := Value.vNull,
    isInternetReachable := Value.vNull }

theorem mk_asdict_roundtrip (e : NetworkLogEntry) :
    mkNetworkLogEntry (asdictEntry e) = Except.ok e := rfl

theorem fsRead_fsWrite_self (fs : FS) (name : String) (d : FileData) :
    fsRead (fsWrite fs name d) name = some d := by
  induction fs with
  | nil => simp [fsWrite, fsRead]
  | cons hd tl ih =>
    cases hd with
    | mk k v =>
      by_cases hk : k = name
      · simp [fsWrite, fsRead, hk]
      · simp [fsWrite, fsRead, hk, ih]

theorem mapM_mk_asdict (l : List NetworkLogEntry) :
    (l.map asdictEntry).mapM mkNetworkLogEntry = Except.ok l := by
  induction l with
  | nil => rfl
  | cons hd tl ih =>
    rw [List.map_cons, List.mapM_cons, mk_asdict_roundtrip, ih]
    rfl

theorem load_save (fs : FS) (new_logs : List NetworkLogEntry)
    (file_path : String) (max_logs : Nat) :
    load_logs_from_file (save_logs_to_file fs new_logs file_path max_logs) file_path
      = (new_logs ++ load_logs_from_file fs file_path).take max_logs := by
  have key : ∀ old : List NetworkLogEntry,
      load_logs_from_file
        (fsWrite fs file_path (FileData.jsonList
          ((if (new_logs ++ old).length > max_logs then
              (new_logs ++ old).take max_logs
            else new_logs ++ old).map asdictEntry)))
        file_path = (new_logs ++ old).take max_logs := by
    intro old
    by_cases h : (new_logs ++ old).length > max_logs
    · simp only [if_pos h, load_logs_from_file, fsRead_fsWrite_self, mapM_mk_asdict]
    · simp only [if_neg h, load_logs_from_file, fsRead_fsWrite_self, mapM_mk_asdict]
      exact (List.take_of_length_le (Nat.le_of_not_lt h)).symm
  exact key (load_logs_from_file fs file_path)

theorem charListLe_total : ∀ a b : List Char, (charListLe a b || charListLe b a) = true := by
  intro a
  induction a with
  | nil => intro b; simp [charListLe]
  | cons x xs ih =>
    intro b
    cases b with
    | nil => simp [charListLe]
    | cons y ys =>
      by_cases hxy : x = y
      · subst hxy
        simpa [charListLe] using ih ys
      · have hyx : y ≠ x := fun h => hxy h.symm
        rcases lt_or_gt_of_ne hxy with h | h
        · simp [charListLe, hxy, hyx, h]
        · simp [charListLe, hxy, hyx, h, not_lt_of_gt h]

theorem charListLe_trans :
    ∀ a b c : List Char, charListLe a b = true → charListLe b c = true →
      charListLe a c = true := by
  intro a
  induction a with
  | nil => intro b c _ _; simp [charListLe]
  | cons x xs ih =>
    intro b c hab hbc
    cases b with
    | nil => simp [charListLe] at hab
    | cons y ys =>
      cases c with
      | nil => simp [charListLe] at hbc
      | cons z zs =>
        by_cases hxy : x = y <;> by_cases hyz : y = z
        · subst hxy; subst hyz
          simp only [charListLe, if_pos rfl] at hab hbc ⊢
          exact ih ys zs hab hbc
        · subst hxy
          simp only [charListLe, if_pos rfl] at hab
          simpa [charListLe, hyz] using hbc
        · subst hyz
          simpa [charListLe, hxy] using hab
        · simp only [charListLe, if_neg hxy] at hab
          simp only [charListLe, if_neg hyz] at hbc
          have hxz : x < z := lt_trans (of_decide_eq_true hab) (of_decide_eq_true hbc)
          have hne : x ≠ z := ne_of_lt hxz
          simp [charListLe, hne, hxz]

theorem valueLe_total : ∀ a b : Value, (valueLe a b || valueLe b a) = true := by
  intro a b
  cases a <;> cases b <;>
    first
      | rfl
      | (simp [valueLe, charListLe_total]; done)
      | (simp only [valueLe, Bool.or_eq_true, decide_eq_true_iff]; omega)
      | (rename_i x y; revert x y; decide)

theorem valueLe_trans :
    ∀ a b c : Value, valueLe a b = true → valueLe b c = true →
      valueLe a c = true := by
  intro a b c hab hbc
  cases a <;> cases b <;> cases c <;>
    first
      | rfl
      | (simp only [valueLe] at hab hbc ⊢; exact charListLe_trans _ _ _ hab hbc)
      | (simp only [valueLe, decide_eq_true_iff] at hab hbc ⊢; omega)
      | (rename_i x y z; revert x y z; decide)
      | (simp [valueLe] at hab; done)
      | (simp [valueLe] at hbc; done)

theorem sortNewestFirst_pairwise (l : List NetworkLogEntry) :
    (sortNewestFirst l).Pairwise
      (fun a b => valueLe b.timestamp a.timestamp = true) :=
  List.sorted_mergeSort
    (fun a b c hab hbc => valueLe_trans c.timestamp b.timestamp a.timestamp hbc hab)
    (fun a b => valueLe_total b.timestamp a.timestamp) l

theorem sortNewestFirst_perm (l : List NetworkLogEntry) :
    (sortNewestFirst l).Perm l :=
  List.mergeSort_perm l _

theorem applyLimit_pos (n : Nat) (l : List NetworkLogEntry) (h : 0 < n) :
    applyLimit (some n) l = l.take n := by
  simp [applyLimit, Nat.pos_iff_ne_zero.mp h]

theorem get_client_file_path_falsy (client_ip : String) (user_id : Option String)
    (h : truthyS user_id = false) :
    get_client_file_path client_ip user_id = get_client_file_path client_ip none := by
  cases user_id with
  | none => rfl
  | some u =>
    simp [truthyS] at h
    simp [get_client_file_path, h]

theorem mk_error_ne (d : Dict) (e : String)
    (h : mkNetworkLogEntry d = Except.error e) : e ≠ "" := by
  unfold mkNetworkLogEntry at h
  split at h
  · cases h; decide
  · split at h
    · cases h; decide
    · cases h

theorem extract_error_ne : ∀ (l : List Dict) (e : String),
    extract_user_id_from_logs l = Except.error e → e ≠ "" := by
  intro l
  induction l with
  | nil => intro e h; simp [extract_user_id_from_logs] at h
  | cons hd tl ih =>
    intro e h
    unfold extract_user_id_from_logs at h
    repeat' split at h
    all_goals
      first
        | (cases h; decide)
        | exact ih _ h
        | cases h

theorem buildLogs_error_of_bad :
    ∀ (l : List Dict) (client_ip : String) (device_info : Value) (now : String),
    (∃ d ∈ l, ∃ e, mkNetworkLogEntry d = Except.error e) →
    ∃ e2, buildLogs l client_ip device_info now = Except.error e2 ∧ e2 ≠ "" := by
  intro l ip dev now
  induction l with
  | nil => rintro ⟨d, hd, _⟩; simp at hd
  | cons hd tl ih =>
    rintro ⟨d, hdmem, e, herr⟩
    rcases List.mem_cons.mp hdmem with rfl | hmem
    · exact ⟨e, by simp [buildLogs, herr], mk_error_ne _ _ herr⟩
    · obtain ⟨e2, hb, hne⟩ := ih ⟨d, hmem, e, herr⟩
      cases hmk : mkNetworkLogEntry hd with
      | error e3 => exact ⟨e3, by simp [buildLogs, hmk], mk_error_ne _ _ hmk⟩
      | ok log => exact ⟨e2, by simp [buildLogs, hmk, hb], hne⟩

theorem handle_abort_of_bad (fs : FS) (max_logs : Nat) (logs_data : List Dict)
    (device_info : Value) (client_ip now : String)
    (h : ∃ d ∈ logs_data, ∃ e, mkNetworkLogEntry d = Except.error e) :
    (handle_log_upload fs max_logs logs_data device_info client_ip now).1.success = false
    ∧ (handle_log_upload fs max_logs logs_data device_info client_ip now).2 = fs
    ∧ (handle_log_upload fs max_logs logs_data device_info client_ip now).1.client_ip = client_ip
    ∧ (handle_log_upload fs max_logs logs_data device_info client_ip now).1.timestamp = now
    ∧ (handle_log_upload fs max_logs logs_data device_info client_ip now).1.error ≠ "" := by
  cases hx : extract_user_id_from_logs logs_data with
  | error e =>
    refine ⟨?_, ?_, ?_, ?_, ?_⟩ <;>
      simp [handle_log_upload, hx, extract_error_ne _ _ hx]
  | ok user_id =>
    obtain ⟨e2, hb, hne⟩ := buildLogs_error_of_bad logs_data client_ip device_info now h
    refine ⟨?_, ?_, ?_, ?_, ?_⟩ <;>
      simp [handle_log_upload, hx, hb, hne]

theorem pairwise_tsNewerEq_of_sort (l : List NetworkLogEntry) :
    (sortNewestFirst l).Pairwise tsNewerEq := by
  refine (sortNewestFirst_pairwise l).imp ?_
  intro a b h sa sb ha hb
  rw [ha, hb] at h
  simpa [valueLe] using h

/-- C1 counterexample: a batch carrying `userId` `u9` from address
`5.6.7.8` is appended to partition `5_6_7_8_user_u9.json`, which then
holds one entry, yet the success result reports `total_stored = 0` — the
count of the anonymous partition `5_6_7_8.json`, not of the partition the
batch was appended to. -/
theorem C1_counterexample :
    (handle_log_upload [] 100 [rawWithUser "T1" "u9"] (Value.vDict [])
        "5.6.7.8" "S").1.success = true
    ∧ (handle_log_upload [] 100 [rawWithUser "T1" "u9"] (Value.vDict [])
        "5.6.7.8" "S").1.saved_to = "5_6_7_8_user_u9.json"
    ∧ (load_logs_from_file
        (handle_log_upload [] 100 [rawWithUser "T1" "u9"] (Value.vDict [])
          "5.6.7.8" "S").2 "5_6_7_8_user_u9.json").length = 1
    ∧ (handle_log_upload [] 100 [rawWithUser "T1" "u9"] (Value.vDict [])
        "5.6.7.8" "S").1.total_stored = 0 := by decide

/-- C1 (amended): for every successful ingestion, `total_stored` is the
post-append count of the anonymous address-only partition
(`_get_client_log_count` never receives the user id); it coincides with
the count of the partition the batch was appended to only when no truthy
user id was extracted from the batch. -/
theorem C1_total_stored_is_anonymous_count (fs : FS) (max_logs : Nat)
    (logs_data : List Dict) (device_info : Value) (client_ip now : String)
    (h : (handle_log_upload fs max_logs logs_data device_info client_ip now).1.success
          = true) :
    (handle_log_upload fs max_logs logs_data device_info client_ip now).1.total_stored
      = get_client_log_count
          (handle_log_upload fs max_logs logs_data device_info client_ip now).2 client_ip
    ∧ (truthyS (handle_log_upload fs max_logs logs_data device_info
          client_ip now).1.user_id = false →
        (handle_log_upload fs max_logs logs_data device_info client_ip now).1.total_stored
          = (load_logs_from_file
              (handle_log_upload fs max_logs logs_data device_info client_ip now).2
              (handle_log_upload fs max_logs logs_data device_info
                client_ip now).1.saved_to).length) := by
  cases hx : extract_user_id_from_logs logs_data with
  | error e => simp [handle_log_upload, hx] at h
  | ok uid =>
    cases hb : buildLogs logs_data client_ip device_info now with
    | error e => simp [handle_log_upload, hx, hb] at h
    | ok new_logs =>
      constructor
      · simp [handle_log_upload, hx, hb]
      · intro ht
        have huid :
            (handle_log_upload fs max_logs logs_data device_info
              client_ip now).1.user_id = uid := by
          simp [handle_log_upload, hx, hb]
        rw [huid] at ht
        simp [handle_log_upload, hx, hb, get_client_log_count,
              get_client_file_path_falsy client_ip uid ht]

theorem C1_total_stored_witness :
    (handle_log_upload [] 100 [rawAnon "T1"] (Value.vDict [])
        "1.2.3.4" "S").1.total_stored
      = get_client_log_count
          (handle_log_upload [] 100 [rawAnon "T1"] (Value.vDict [])
            "1.2.3.4" "S").2 "1.2.3.4" :=
  (C1_total_stored_is_anonymous_count [] 100 [rawAnon "T1"] (Value.vDict [])
    "1.2.3.4" "S" (by decide)).1

/-- C2: appending batch B to partition P stores the new events first, in
batch order, followed by the prior entries, truncated to the first
`max_logs`; hence the post-append count is
`min(max_logs, count before + len B)`. -/
theorem C2_append_retention (fs : FS) (new_logs : List NetworkLogEntry)
    (file_path : String) (max_logs : Nat) :
    load_logs_from_file (save_logs_to_file fs new_logs file_path max_logs) file_path
      = (new_logs ++ load_logs_from_file fs file_path).take max_logs
    ∧ (load_logs_from_file (save_logs_to_file fs new_logs file_path max_logs)
        file_path).length
      = min max_logs ((load_logs_from_file fs file_path).length + new_logs.length) := by
  refine ⟨load_save fs new_logs file_path max_logs, ?_⟩
  rw [load_save]
  simp only [List.length_take, List.length_append]
  omega

/-- C3 (code bug): the persist step opens the partition file with mode
`'w'`, which truncates it in place before `json.dump` runs; if the dump
fails partway the file is left unparseable, so the prior durable state is
lost rather than left intact — after the interrupted persist the partition
loads as empty and its stored bytes differ from the prior state, although
the failure itself is re-raised to the ingestion engine. -/
theorem C3_interrupted_persist_loses_prior_state :
    load_logs_from_file
        [("1_2_3_4.json", FileData.jsonList [asdictEntry sampleEntry])]
        "1_2_3_4.json" = [sampleEntry]
    ∧ load_logs_from_file
        (persist_interrupted
          [("1_2_3_4.json", FileData.jsonList [asdictEntry sampleEntry])]
          "1_2_3_4.json")
        "1_2_3_4.json" = []
    ∧ persist_interrupted
        [("1_2_3_4.json", FileData.jsonList [asdictEntry sampleEntry])]
        "1_2_3_4.json"
      ≠ [("1_2_3_4.json", FileData.jsonList [asdictEntry sampleEntry])] := by
  decide

/-- C4: a batch containing a raw event that fails structural construction
is aborted whole: the store is unchanged (also for the well-formed events
earlier in the batch), and the caller receives a failure result carrying a
nonempty error description, the caller address, and the server timestamp
— no exception escapes the ingestion boundary. -/
theorem C4_malformed_event_aborts_batch (fs : FS) (max_logs : Nat)
    (logs_data : List Dict) (device_info : Value) (client_ip now : String)
    (h : ∃ d ∈ logs_data, ∃ e, mkNetworkLogEntry d = Except.error e) :
    (handle_log_upload fs max_logs logs_data device_info client_ip now).1.success = false
    ∧ (handle_log_upload fs max_logs logs_data device_info client_ip now).2 = fs
    ∧ (handle_log_upload fs max_logs logs_data device_info client_ip now).1.client_ip
        = client_ip
    ∧ (handle_log_upload fs max_logs logs_data device_info client_ip now).1.timestamp
        = now
    ∧ (handle_log_upload fs max_logs logs_data device_info client_ip now).1.error ≠ "" :=
  handle_abort_of_bad fs max_logs logs_data device_info client_ip now h

theorem C4_malformed_witness :
    (handle_log_upload [] 100 [rawAnon "T1", rawMissingRequired] (Value.vDict [])
        "1.2.3.4" "S").1.success = false
    ∧ (handle_log_upload [] 100 [rawAnon "T1", rawMissingRequired] (Value.vDict [])
        "1.2.3.4" "S").2 = [] := by
  have h := C4_malformed_event_aborts_batch [] 100 [rawAnon "T1", rawMissingRequired]
    (Value.vDict []) "1.2.3.4" "S"
    ⟨rawMissingRequired, by decide,
     "__init__() missing required positional argument", rfl⟩
  exact ⟨h.1, h.2.1⟩

/-- C5: loading a partition degrades to the empty sequence instead of
failing: when the underlying file is missing, when its content cannot be
parsed, and when its entries do not reconstruct as log entries. -/
theorem C5_load_degrades_to_empty (fs : FS) (file_path : String) :
    (fsRead fs file_path = none → load_logs_from_file fs file_path = [])
    ∧ (fsRead fs file_path = some FileData.corrupt →
        load_logs_from_file fs file_path = [])
    ∧ (∀ items e, fsRead fs file_path = some (FileData.jsonList items) →
        items.mapM mkNetworkLogEntry = Except.error e →
        load_logs_from_file fs file_path = []) :=
  ⟨fun h => by simp [load_logs_from_file, h],
   fun h => by simp [load_logs_from_file, h],
   fun items e h1 h2 => by
    have h2l : List.mapM.loop mkNetworkLogEntry items [] = Except.error e := h2
    simp [load_logs_from_file, h1, h2l]⟩

theorem C5_load_witness :
    load_logs_from_file [("a.json", FileData.corrupt)] "missing.json" = []
    ∧ load_logs_from_file [("a.json", FileData.corrupt)] "a.json" = []
    ∧ load_logs_from_file
        [("b.json", FileData.jsonList [[("bogus", Value.vNull)]])] "b.json" = [] :=
  ⟨(C5_load_degrades_to_empty [("a.json", FileData.corrupt)] "missing.json").1 rfl,
   (C5_load_degrades_to_empty [("a.json", FileData.corrupt)] "a.json").2.1 rfl,
   (C5_load_degrades_to_empty [("b.json", FileData.jsonList [[("bogus", Value.vNull)]])]
      "b.json").2.2 [[("bogus", Value.vNull)]]
      "__init__() got an unexpected keyword argument" rfl rfl⟩

/-- C6 counterexample: ingesting a batch whose `userId` is `a/b` stores it
under the sanitized partition `1_2_3_4_user_a_b.json` (one entry present),
but `byUser` matches file names against the raw suffix `_user_a/b`, so the
query for that user returns nothing. -/
theorem C6_counterexample :
    (handle_log_upload [] 100 [rawWithUser "T1" "a/b"] (Value.vDict [])
        "1.2.3.4" "S").1.saved_to = "1_2_3_4_user_a_b.json"
    ∧ (load_logs_from_file
        (handle_log_upload [] 100 [rawWithUser "T1" "a/b"] (Value.vDict [])
          "1.2.3.4" "S").2 "1_2_3_4_user_a_b.json").length = 1
    ∧ get_logs_user
        (handle_log_upload [] 100 [rawWithUser "T1" "a/b"] (Value.vDict [])
          "1.2.3.4" "S").2 "a/b" none = [] := by
  refine ⟨by decide, by decide, ?_⟩
  have hfiles :
      ((listdir (handle_log_upload [] 100 [rawWithUser "T1" "a/b"] (Value.vDict [])
          "1.2.3.4" "S").2).filter fun n =>
        strEndsWith n ".json" && strContains n ("_user_" ++ "a/b")) = [] := by
    decide
  show applyLimit none (sortNewestFirst
      (((listdir (handle_log_upload [] 100 [rawWithUser "T1" "a/b"] (Value.vDict [])
          "1.2.3.4" "S").2).filter fun n =>
        strEndsWith n ".json" && strContains n ("_user_" ++ "a/b")).flatMap
        (load_logs_from_file (handle_log_upload [] 100 [rawWithUser "T1" "a/b"]
          (Value.vDict []) "1.2.3.4" "S").2))) = []
  rw [hfiles]
  simp [sortNewestFirst, applyLimit]

/-- C6 (amended): `byUser` merges exactly the `.json` partitions whose file
name contains the raw, unsanitized `_user_<userId>` substring — the
query side applies no path-separator sanitization, so ids changed by
sanitization at write time are not matched. -/
theorem C6_byUser_scans_raw_suffix (fs : FS) (user_id : String) :
    (get_logs_user fs user_id none).Perm
      (((listdir fs).filter fun n =>
          strEndsWith n ".json" && strContains n ("_user_" ++ user_id)).flatMap
        (load_logs_from_file fs)) := by
  show (applyLimit none (sortNewestFirst
      (((listdir fs).filter fun n =>
          strEndsWith n ".json" && strContains n ("_user_" ++ user_id)).flatMap
        (load_logs_from_file fs)))).Perm _
  exact sortNewestFirst_perm _

/-- C7: each of the three lookup modes returns a sequence sorted
newest-first by the timestamp string (descending), and a supplied positive
limit is applied after the sort, keeping the first `limit` entries. -/
theorem C7_sorted_and_limit_after_sort (fs : FS)
    (client_ip user_id session_field session_value : String) (n : Nat)
    (hn : 0 < n) :
    ((get_logs_ip fs client_ip none).Pairwise tsNewerEq
      ∧ get_logs_ip fs client_ip (some n)
          = (get_logs_ip fs client_ip none).take n)
    ∧ ((get_logs_user fs user_id none).Pairwise tsNewerEq
      ∧ get_logs_user fs user_id (some n)
          = (get_logs_user fs user_id none).take n)
    ∧ (∀ out, get_logs_session_context fs session_field session_value none
          = Except.ok out →
        out.Pairwise tsNewerEq
        ∧ get_logs_session_context fs session_field session_value (some n)
            = Except.ok (out.take n)) := by
  refine ⟨⟨pairwise_tsNewerEq_of_sort _, ?_⟩,
          ⟨pairwise_tsNewerEq_of_sort _, ?_⟩, ?_⟩
  · exact applyLimit_pos n _ hn
  · exact applyLimit_pos n _ hn
  · intro out hout
    cases hscan : scan_session_logs fs session_field session_value with
    | error e => simp [get_logs_session_context, hscan] at hout
    | ok m =>
      unfold get_logs_session_context at hout
      rw [hscan] at hout
      have hout2 : sortNewestFirst m = out := Except.ok.inj hout
      constructor
      · rw [← hout2]
        exact pairwise_tsNewerEq_of_sort m
      · unfold get_logs_session_context
        rw [hscan]
        show Except.ok (applyLimit (some n) (sortNewestFirst m))
          = Except.ok (out.take n)
        rw [← hout2, applyLimit_pos n _ hn]

theorem C7_sorted_witness :
    get_logs_ip [("1_2_3_4.json", FileData.jsonList [asdictEntry sampleEntry])]
        "1.2.3.4" (some 1)
      = (get_logs_ip [("1_2_3_4.json", FileData.jsonList [asdictEntry sampleEntry])]
          "1.2.3.4" none).take 1 :=
  ((C7_sorted_and_limit_after_sort
      [("1_2_3_4.json", FileData.jsonList [asdictEntry sampleEntry])]
      "1.2.3.4" "u9" "plan" "pro" 1 (by decide)).1).2

/-- C8: with both address and user given (truthy), `clear` returns the
number of entries the partition held immediately before the clear, and a
load of that partition issued afterwards returns the empty sequence. -/
theorem C8_clear_returns_count_then_empty (fs : FS) (client_ip user_id : String)
    (hip : client_ip ≠ "") (hu : user_id ≠ "") :
    (clear_logs fs (some client_ip) (some user_id)).1
      = (load_logs_from_file fs
          (get_client_file_path client_ip (some user_id))).length
    ∧ load_logs_from_file (clear_logs fs (some client_ip) (some user_id)).2
        (get_client_file_path client_ip (some user_id)) = [] := by
  have ht : (truthyS (some client_ip) && truthyS (some user_id)) = true := by
    simp [truthyS, hip, hu]
  constructor
  · simp [clear_logs, ht]
  · simp [clear_logs, ht, load_logs_from_file, fsRead_fsWrite_self]
    rfl

theorem C8_clear_witness :
    (clear_logs [("1_2_3_4_user_u9.json", FileData.jsonList [asdictEntry sampleEntry])]
        (some "1.2.3.4") (some "u9")).1
      = (load_logs_from_file
          [("1_2_3_4_user_u9.json", FileData.jsonList [asdictEntry sampleEntry])]
          (get_client_file_path "1.2.3.4" (some "u9"))).length
    ∧ load_logs_from_file
        (clear_logs [("1_2_3_4_user_u9.json", FileData.jsonList [asdictEntry sampleEntry])]
          (some "1.2.3.4") (some "u9")).2
        (get_client_file_path "1.2.3.4" (some "u9")) = [] :=
  C8_clear_returns_count_then_empty
    [("1_2_3_4_user_u9.json", FileData.jsonList [asdictEntry sampleEntry])]
    "1.2.3.4" "u9" (by decide) (by decide)

/-- C9: a limit of `0` is falsy in Python, so `logs[:limit]` is skipped in
all three lookup modes and the full merged, sorted result is returned —
the same as passing no limit at all. -/
theorem C9_limit_zero_is_no_limit (fs : FS)
    (client_ip user_id session_field session_value : String) :
    get_logs_ip fs client_ip (some 0) = get_logs_ip fs client_ip none
    ∧ get_logs_user fs user_id (some 0) = get_logs_user fs user_id none
    ∧ get_logs_session_context fs session_field session_value (some 0)
        = get_logs_session_context fs session_field session_value none := by
  refine ⟨?_, ?_, ?_⟩
  · show applyLimit (some 0) _ = applyLimit none _
    simp [applyLimit]
  · show applyLimit (some 0) _ = applyLimit none _
    simp [applyLimit]
  · cases hscan : scan_session_logs fs session_field session_value with
    | error e =>
      unfold get_logs_session_context
      rw [hscan]
      rfl
    | ok m =>
      unfold get_logs_session_context
      rw [hscan]
      show Except.ok (applyLimit (some 0) (sortNewestFirst m))
        = Except.ok (applyLimit none (sortNewestFirst m))
      simp [applyLimit]

/-- C10: `NetworkLogEntry(**d)` is closed over the declared field schema —
a raw event dict with any key outside the dataclass fields fails
construction with a TypeError, and a batch containing such an event is
aborted whole with a failure result, the store left unchanged. -/
theorem C10_extra_key_fails_and_aborts (fs : FS) (max_logs : Nat)
    (logs_data : List Dict) (device_info : Value) (client_ip now : String)
    (d : Dict) (kv : String × Value)
    (hkv : kv ∈ d) (hout : fieldNames.contains kv.1 = false)
    (hd : d ∈ logs_data) :
    (∃ e, mkNetworkLogEntry d = Except.error e)
    ∧ (handle_log_upload fs max_logs logs_data device_info client_ip now).1.success
        = false
    ∧ (handle_log_upload fs max_logs logs_data device_info client_ip now).2 = fs := by
  have hall : (d.all fun x => fieldNames.contains x.1) = false := by
    apply Bool.eq_false_iff.mpr
    intro hx
    have hmem := List.all_eq_true.mp hx kv hkv
    have hnmem : kv.1 ∉ fieldNames := by simpa using hout
    simp [hnmem] at hmem
  have hmk : mkNetworkLogEntry d
      = Except.error "__init__() got an unexpected keyword argument" := by
    unfold mkNetworkLogEntry
    rw [hall]
    rfl
  have habort := handle_abort_of_bad fs max_logs logs_data device_info client_ip now
    ⟨d, hd, _, hmk⟩
  exact ⟨⟨_, hmk⟩, habort.1, habort.2.1⟩

theorem C10_extra_key_witness :
    (∃ e, mkNetworkLogEntry rawExtraKey = Except.error e)
    ∧ (handle_log_upload [] 100 [rawExtraKey] (Value.vDict [])
        "1.2.3.4" "S").1.success = false
    ∧ (handle_log_upload [] 100 [rawExtraKey] (Value.vDict [])
        "1.2.3.4" "S").2 = [] :=
  C10_extra_key_fails_and_aborts [] 100 [rawExtraKey] (Value.vDict [])
    "1.2.3.4" "S" rawExtraKey ("bogusKey", Value.vNull)
    (by decide) (by decide) (by decide)
